import Mathlib

/-!
Scene viewer: shallow embedding and verification.

A shallow embedding of the scene-composition and movement engine of
`src/src/main.rs` (a tile-map viewer with an animated player avatar),
together with proofs about the properties its specification states.

Modelling conventions:

* Rust `i32` / `u32` values are modelled as `Int` / `Nat`.  Overflow is
  modelled explicitly (`% 2^32`) only where the source can actually wrap
  (the tick counter and the `u32` subtraction `ticks - start`); all other
  quantities are small coordinates where wrapping is unreachable.
* Rust `/` on `i32` truncates toward zero, so every integer division from
  the source is embedded as `Int.tdiv`.
* Rust `f64` arithmetic is modelled exactly over `ℚ`.  Every constant the
  engine uses (`100.0`, `8.`, `7.99`, `1.5`, `1000.`) and every comparison
  the claims concern are exact in this range; the claims are about branch
  structure, not rounding.  The `f64 -> i32` cast truncates toward zero and
  is embedded as `truncQ`.
* Functions that can panic in the source (`expect`, `unwrap`,
  `unreachable!`) are embedded as `Option`-valued functions returning
  `none` on the panicking paths.
* `draw_player` emits a fixed contiguous block of per-part draw calls; the
  ordering claims treat that block as one unit, so it is modelled as the
  single draw operation `DrawOp.player`.
-/

/-- The `f64 -> i32` cast: truncation toward zero (`q.num.tdiv q.den` on a
reduced rational). -/
def truncQ (q : ℚ) : Int := q.num.tdiv (q.den : Int)

/-- The `u32` wrapping subtraction (`ticks - start` in `draw_player`). -/
def u32sub (a b : Nat) : Nat := (a + (2 ^ 32 - b % 2 ^ 32)) % 2 ^ 32

/-- The display zoom factor `SCALE: f64 = 1.5` from the source. -/
def SCALE : ℚ := 3 / 2

/-- The source enum `PlayerDir { Down = 0, Right = 1, Up = 2, Left = 3 }`. -/
inductive PlayerDir where
  | Down
  | Right
  | Up
  | Left
deriving DecidableEq

/-- The discriminant of a `PlayerDir`, as used by `dir as usize` in the
source (`Down = 0, Right = 1, Up = 2, Left = 3`). -/
def PlayerDir.toUsize : PlayerDir → Nat
  | .Down => 0
  | .Right => 1
  | .Up => 2
  | .Left => 3

/-- The 4-entry direction table `[Option<u32>; 4]` of a
`TextureTileInfo`; the source indexes it with `dir as usize`. -/
structure DirTable where
  e0 : Option Nat
  e1 : Option Nat
  e2 : Option Nat
  e3 : Option Nat
deriving DecidableEq

/-- Array indexing `table[dir as usize]`; the enum discriminants are
exactly the array indices, so this is matched on the direction. -/
def DirTable.get (t : DirTable) : PlayerDir → Option Nat
  | .Down => t.e0
  | .Right => t.e1
  | .Up => t.e2
  | .Left => t.e3

/-- The renderable texture handle; the engine only ever reads its width
(`Texture::get_width`). -/
structure TextureS where
  width : Nat
deriving DecidableEq

/-- The source alias `TextureTileInfo = (Texture, u32, (u32, u32), (i32, i32),
[Option<u32>; 4])`: texture, base frame index, frame size, pixel draw
offset, per-direction row-offset table. -/
structure TextureTileInfo where
  texture : TextureS
  index : Nat
  frame_size : Nat × Nat
  draw_offset : Int × Int
  dir_table : DirTable
deriving DecidableEq

/-- A `graphics::Image` draw description: source rectangle in sheet-pixel
space and destination rectangle.  The source stores these as `f64`, but
every value placed in them is integral, so they are embedded as `Int`. -/
structure Image where
  src_rect : Int × Int × Int × Int
  rect : Int × Int × Int × Int
deriving DecidableEq

/-- Embedding of `image_for_tile_reference`: the tile/frame index resolver.
`src_x = index % cols * tile_w`, `src_y = (index / cols + y_offset) * tile_h`;
a horizontal flip shifts the x origin right by `tile_w` and negates the
width.  The destination rectangle is `(pos*16 + offset - view, tile size)`. -/
def image_for_tile_reference (num_h_tiles : Nat) (tile_wh : Nat × Nat)
    (index : Nat) (index_y_offset : Nat) (pos : Int × Int)
    (off : Int × Int) (view : Int × Int) (flip_h : Bool) : Image :=
  let tile_w := tile_wh.1
  let tile_h := tile_wh.2
  let src_x : Nat := index % num_h_tiles * tile_w
  let src_y : Nat := (index / num_h_tiles + index_y_offset) * tile_h
  let src_rect : Int × Int × Int × Int :=
    if flip_h then
      ((src_x : Int) + (tile_w : Int), (src_y : Int), -(tile_w : Int), (tile_h : Int))
    else
      ((src_x : Int), (src_y : Int), (tile_w : Int), (tile_h : Int))
  { src_rect := src_rect
    rect := (pos.1 * 16 + off.1 - view.1, pos.2 * 16 + off.2 - view.2,
             (tile_w : Int), (tile_h : Int)) }

/-- The animation-frame computation `anim.map_or(0, |a| a.0 / 150 % a.1)`
from `image_for_texture`: absent animation gives frame offset 0. -/
def anim_frame (anim : Option (Nat × Nat)) : Nat :=
  match anim with
  | none => 0
  | some a => a.1 / 150 % a.2

/-- Embedding of `image_for_texture`: resolves one sprite part.  Sheet columns come
from the texture width, the direction table selects the row block (absent
entry falls back to 0 here; callers suppress the draw separately), art is
mirrored when facing Left with identical Left/Right table entries, and
the animation frame offset is added to the base index. -/
def image_for_texture (texture : TextureTileInfo) (pos : Int × Int)
    (view : Int × Int) (off : Int × Int) (anim : Option (Nat × Nat))
    (dir : PlayerDir) : Image :=
  let num_h_tiles := texture.texture.width / texture.frame_size.1
  let off2 := (texture.draw_offset.1 + off.1, texture.draw_offset.2 + off.2)
  let base := (texture.dir_table.get dir).getD 0
  let flip := dir = PlayerDir.Left &&
    texture.dir_table.get PlayerDir.Left == texture.dir_table.get PlayerDir.Right
  let anim_idx := anim_frame anim
  image_for_tile_reference num_h_tiles texture.frame_size
    (texture.index + anim_idx) base pos off2 view flip

/-- The elapsed-tick computation from `draw_player`:
`match last_move_start { Some(start) => ticks - start, None => 0 }`
(`u32` wrapping subtraction). -/
def player_ticks (ticks : Nat) (last_move_start : Option Nat) : Nat :=
  match last_move_start with
  | some start => u32sub ticks start
  | none => 0

/-- The cutscene direction-code translation from `characters_for_event`:
`0 => Up, 1 => Right, 2 => Down, 3 => Left, _ => unreachable!()` (the
panic on any other code is modelled as `none`). -/
def dirForCode (c : Nat) : Option PlayerDir :=
  match c with
  | 0 => some PlayerDir.Up
  | 1 => some PlayerDir.Right
  | 2 => some PlayerDir.Down
  | 3 => some PlayerDir.Left
  | _ => none

/-- The player state: map cell, sub-tile pixel offsets, animation start
tick and facing.  The equip-slot `TextureTileInfo`s are omitted: they
only parameterize the pixel content of the player part draws, which the
ordering claims treat as one opaque block. -/
structure Player where
  x : Int
  y : Int
  offset_x : ℚ
  offset_y : ℚ
  last_move_start : Option Nat
  dir : PlayerDir
deriving DecidableEq

/-- Embedding of `Player::adjusted_pos`: the target cell after applying the candidate
deltas, moving by ±1 on an axis exactly when the candidate offset would
cross the ±8px boundary. -/
def Player.adjusted_pos (p : Player) (delta_x delta_y : ℚ) : Int × Int :=
  let x := p.x + (if delta_x < 0 ∧ p.offset_x + delta_x < -8 then -1
    else if delta_x > 0 ∧ p.offset_x + delta_x > 8 then 1
    else 0)
  let y := p.y + (if delta_y < 0 ∧ p.offset_y + delta_y < -8 then -1
    else if delta_y > 0 ∧ p.offset_y + delta_y > 8 then 1
    else 0)
  (x, y)

/-- Embedding of `Player::move_horiz`: add the delta; on crossing ±8 either pin the
offset just inside the boundary (clamped) or wrap it to the opposite
sign and step the cell. -/
def Player.move_horiz (p : Player) (delta : ℚ) (clamp_to_current_pos : Bool) : Player :=
  let p := { p with offset_x := p.offset_x + delta }
  if delta < 0 ∧ p.offset_x < -8 then
    if clamp_to_current_pos then
      { p with offset_x := -(799 / 100) }
    else
      { p with offset_x := 8, x := p.x - 1 }
  else if delta > 0 ∧ p.offset_x > 8 then
    if clamp_to_current_pos then
      { p with offset_x := 799 / 100 }
    else
      { p with offset_x := -8, x := p.x + 1 }
  else
    p

/-- Embedding of `Player::move_vert`: vertical analogue of `Player.move_horiz`. -/
def Player.move_vert (p : Player) (delta : ℚ) (clamp_to_current_pos : Bool) : Player :=
  let p := { p with offset_y := p.offset_y + delta }
  if delta < 0 ∧ p.offset_y < -8 then
    if clamp_to_current_pos then
      { p with offset_y := -(799 / 100) }
    else
      { p with offset_y := 8, y := p.y - 1 }
  else if delta > 0 ∧ p.offset_y > 8 then
    if clamp_to_current_pos then
      { p with offset_y := 799 / 100 }
    else
      { p with offset_y := -8, y := p.y + 1 }
  else
    p

/-- A tile of a map layer: its `(x, y)` map-cell position (`get_pos`,
cast to `i32` at every use site).  The sheet reference and logical index
only select pixel content, never draw order or collision, so they are
omitted. -/
structure MapTile where
  x : Int
  y : Int
deriving DecidableEq

/-- A map layer: string id (special-cased ids: obstruction layer
`"Buildings"`, skipped layer `"Paths"`), visibility flag, map-cell size,
and the ordered tile sequence. -/
structure Layer where
  id : String
  visible : Bool
  size : Nat × Nat
  tiles : List MapTile
deriving DecidableEq

/-- The map: its ordered layer list (the tilesheets play no role in the
claims' code paths beyond texture lookup). -/
structure TideMap where
  layers : List Layer
deriving DecidableEq

/-- An NPC: position, static sub-tile offset, facing. -/
structure Character where
  x : Int
  y : Int
  offset_x : ℚ
  offset_y : ℚ
  dir : PlayerDir
deriving DecidableEq

/-- The engine state bundled in `struct App` (minus the GL handle):
viewport origin and window size, tick counter, the four key-held flags
and the recompute-facing flag. -/
structure App where
  view_x : Int
  view_y : Int
  view_w : Nat
  view_h : Nat
  ticks : Nat
  d_pressed : Bool
  a_pressed : Bool
  w_pressed : Bool
  s_pressed : Bool
  update_last_move : Bool
deriving DecidableEq

/-- The horizontal candidate displacement computed in `App::update`:
`if a { -100*dt } else if d { 100*dt } else { 0 }` (A = left has
priority over D = right). -/
def deltaX (a_pressed d_pressed : Bool) (dt : ℚ) : ℚ :=
  if a_pressed then -100 * dt else if d_pressed then 100 * dt else 0

/-- The vertical candidate displacement computed in `App::update`:
`if w { -100*dt } else if s { 100*dt } else { 0 }` (W = up has priority
over S = down). -/
def deltaY (w_pressed s_pressed : Bool) (dt : ℚ) : ℚ :=
  if w_pressed then -100 * dt else if s_pressed then 100 * dt else 0

/-- The collision probe of `App::update`: does the given (obstruction)
layer contain a tile at exactly the probed cell? -/
def buildingAt (l : Layer) (cell : Int × Int) : Bool :=
  l.tiles.any fun t => (t.x, t.y) == cell

/-- The facing / animation-clock block at the top of `App::update`: when
the recompute-facing flag is set and some movement key is held, the keys
overwrite the facing in the fixed order W, S, A, D (so D wins ties) and
the movement start tick resets; with no key held the start tick clears. -/
def faceUpdate (a : App) (ticks' : Nat) (p : Player) : Player :=
  if a.update_last_move then
    if a.a_pressed || a.d_pressed || a.s_pressed || a.w_pressed then
      let dir0 := p.dir
      let dir1 := if a.w_pressed then PlayerDir.Up else dir0
      let dir2 := if a.s_pressed then PlayerDir.Down else dir1
      let dir3 := if a.a_pressed then PlayerDir.Left else dir2
      let dir4 := if a.d_pressed then PlayerDir.Right else dir3
      { p with dir := dir4, last_move_start := some ticks' }
    else
      { p with last_move_start := none }
  else
    p

/-- The tick-counter advance `self.ticks += (args.dt * 1000.) as u32`:
the `f64 -> u32` cast saturates, the `u32` addition wraps. -/
def advanceTicks (ticks : Nat) (dt : ℚ) : Nat :=
  (ticks + (truncQ (dt * 1000)).toNat.min (2 ^ 32 - 1)) % 2 ^ 32

/-- The body of `App::update` once the `"Buildings"` layer `bl` and
`map.layers[0]` (`l0`, used for the camera clamp) have been resolved:
advance ticks, recompute facing, compute the two axis deltas, probe the
obstruction layer at the adjusted target's foot cell, move both axes
with the single shared clamp flag, then track and clamp the camera. -/
def updateCore (dt : ℚ) (a : App) (p : Player) (bl l0 : Layer) : App × Player :=
  let ticks' := advanceTicks a.ticks dt
  let p0 := faceUpdate a ticks' p
  let delta_x := deltaX a.a_pressed a.d_pressed dt
  let delta_y := deltaY a.w_pressed a.s_pressed dt
  let adjusted := p0.adjusted_pos delta_x delta_y
  let clamp_to_current_pos := buildingAt bl (adjusted.1, adjusted.2 + 1)
  let p1 := p0.move_horiz delta_x clamp_to_current_pos
  let p2 := p1.move_vert delta_y clamp_to_current_pos
  let player_px := p2.x * 16 + truncQ p2.offset_x
  let player_py := p2.y * 16 + truncQ p2.offset_y
  let view_w := truncQ ((a.view_w : ℚ) / SCALE)
  let view_h := truncQ ((a.view_h : ℚ) / SCALE)
  let adjusted_x :=
    if player_px - a.view_x < view_w.tdiv 3 then player_px - view_w.tdiv 3
    else if player_px - a.view_x > view_w.tdiv 3 * 2 then player_px - view_w.tdiv 3 * 2
    else a.view_x
  let adjusted_y :=
    if player_py - a.view_y < view_h.tdiv 3 then player_py - view_h.tdiv 3
    else if player_py - a.view_y > view_h.tdiv 3 * 2 then player_py - view_h.tdiv 3 * 2
    else a.view_y
  let max_x := ((l0.size.1 : Int) - view_w.tdiv 16) * 16
  let max_y := ((l0.size.2 : Int) - view_h.tdiv 16) * 16
  ({ a with ticks := ticks'
            update_last_move := false
            view_x := min (max adjusted_x 0) max_x
            view_y := min (max adjusted_y 0) max_y },
   p2)

/-- Embedding of `App::update`.  The source panics (`expect("no buildings?")`) when no
layer is named `"Buildings"`; that path is `none`.  When the find
succeeds the layer list is nonempty, so the `map.layers[0]` access used
by the camera clamp cannot fail. -/
def App.update (a : App) (dt : ℚ) (p : Player) (m : TideMap) : Option (App × Player) :=
  match m.layers.find? (fun l => l.id == "Buildings"), m.layers.head? with
  | some bl, some l0 => some (updateCore dt a p bl l0)
  | _, _ => none

/-- One emitted draw operation.  `player` stands for the contiguous block
of part draws emitted by `draw_player`; `tile` and `character` record the
map cell being drawn. -/
inductive DrawOp where
  | tile (x y : Int)
  | player
  | character (x y : Int)
deriving DecidableEq

/-- The viewport-culling test of `draw_layer`:
`x < view_x / 16 || x > view_w || y < view_y / 16 || y > view_h`. -/
def cullTile (view_x view_y view_w view_h x y : Int) : Bool :=
  decide (x < view_x.tdiv 16) || decide (x > view_w) ||
  decide (y < view_y.tdiv 16) || decide (y > view_h)

/-- Embedding of `last_pos.map_or(false, |(tx, _)| tx < player.x)`: the
previously-iterated tile, if any, sat at a column strictly left of the
player. -/
def lastLt (last_pos : Option (Int × Int)) (px : Int) : Bool :=
  match last_pos with
  | some t => decide (t.1 < px)
  | none => false

/-- The depth-interleave trigger of `draw_layer`: the current tile is in
the row just below the player at a column at or right of the player, and
the previous tile sat strictly left of the player. -/
def interleaveHit (p : Player) (x y : Int) (last_pos : Option (Int × Int)) : Bool :=
  decide (y = p.y + 1) && decide (x ≥ p.x) && lastLt last_pos p.x

/-- The tile loop of `draw_layer`: for each tile, first the interleave
check (emitting the player block), then the `last_pos` update, then the
viewport cull, then the tile draw. -/
def drawLayerGo (player : Option Player) (view_x view_y view_w view_h : Int) :
    List MapTile → Option (Int × Int) → List DrawOp
  | [], _ => []
  | t :: ts, last_pos =>
    (if (match player with
         | some p => interleaveHit p t.x t.y last_pos
         | none => false) then
      [DrawOp.player]
    else []) ++
    (if cullTile view_x view_y view_w view_h t.x t.y then []
     else [DrawOp.tile t.x t.y]) ++
    drawLayerGo player view_x view_y view_w view_h ts (some (t.x, t.y))

/-- Embedding of `draw_layer`: invisible layers and the layer named `"Paths"` are
skipped entirely; otherwise the tile loop runs with no previous tile. -/
def drawLayer (l : Layer) (player : Option Player)
    (view_x view_y view_w view_h : Int) : List DrawOp :=
  if !l.visible || l.id == "Paths" then []
  else drawLayerGo player view_x view_y view_w view_h l.tiles none

/-- Embedding of `draw_character`: characters at a negative cell are skipped. -/
def drawCharacter (c : Character) : List DrawOp :=
  if c.x < 0 ∨ c.y < 0 then [] else [DrawOp.character c.x c.y]

/-- The layer loop of `App::render`: iterate layers with their index,
breaking before the last layer; only the layer at index 1 receives the
player for depth interleaving. -/
def renderLoop (p : Player) (view_x view_y view_w view_h : Int) (n : Nat) :
    Nat → List Layer → List DrawOp
  | _, [] => []
  | i, l :: ls =>
    if i = n - 1 then []
    else
      drawLayer l (if i = 1 then some p else none) view_x view_y view_w view_h ++
      renderLoop p view_x view_y view_w view_h n (i + 1) ls

/-- Embedding of the draw sequence of `App::render`: all layers but the last (player
interleaved into layer 1 only), then the characters, then the final
layer as a pure foreground overlay.  The source's
`layers.last().unwrap()` panics on an empty layer list; that path is
`none`.  The culling bounds passed to `draw_layer` are
`window/16 + view/16` as in the source. -/
def renderOps (p : Player) (characters : List Character) (layers : List Layer)
    (view_x view_y window_w window_h : Int) : Option (List DrawOp) :=
  match layers.getLast? with
  | none => none
  | some lastLayer =>
    let view_w := window_w.tdiv 16 + view_x.tdiv 16
    let view_h := window_h.tdiv 16 + view_y.tdiv 16
    some (renderLoop p view_x view_y view_w view_h layers.length 0 layers ++
          (characters.map drawCharacter).flatten ++
          drawLayer lastLayer none view_x view_y view_w view_h)

/-- One direct call to `Player::move_horiz` or `Player::move_vert`, used
to quantify over arbitrary movement sequences. -/
inductive MoveCall where
  | horiz (delta : ℚ) (clamp : Bool)
  | vert (delta : ℚ) (clamp : Bool)
deriving DecidableEq

/-- Apply a sequence of movement calls to a player. -/
def applyMoves (p : Player) : List MoveCall → Player
  | [] => p
  | MoveCall.horiz d c :: ms => applyMoves (p.move_horiz d c) ms
  | MoveCall.vert d c :: ms => applyMoves (p.move_vert d c) ms

/-- Whether the depth-interleave trigger of `draw_layer` fires anywhere
along a tile sequence, starting from the given previous-tile state. -/
def hasTrigger (p : Player) : List MapTile → Option (Int × Int) → Bool
  | [], _ => false
  | t :: ts, last_pos => interleaveHit p t.x t.y last_pos || hasTrigger p ts (some (t.x, t.y))

/-- A map whose `"Buildings"` layer holds no tiles (nothing obstructs). -/
def mapNoB : TideMap := ⟨[⟨"Buildings", true, (50, 50), []⟩]⟩

/-- A map whose `"Buildings"` layer holds exactly one tile, at cell
`(1, 2)`. -/
def mapB12 : TideMap := ⟨[⟨"Buildings", true, (50, 50), [⟨1, 2⟩]⟩]⟩

/-- A small map (2×2 cells) with an empty `"Buildings"` layer, for the
camera-clamp analysis. -/
def mapSmall : TideMap := ⟨[⟨"Buildings", true, (2, 2), []⟩]⟩

theorem truncQ_intCast (n : ℤ) : truncQ (n : ℚ) = n := by
  simp [truncQ, Rat.num_intCast, Rat.den_intCast]

theorem truncQ_natCast (n : ℕ) : truncQ (n : ℚ) = n := by
  simp [truncQ, Rat.num_natCast, Rat.den_natCast]

theorem truncQ_ofNat (n : ℕ) [n.AtLeastTwo] :
    truncQ (no_index (OfNat.ofNat n)) = OfNat.ofNat n := by
  simp [truncQ, Rat.num_ofNat, Rat.den_ofNat]

theorem truncQ_zero : truncQ 0 = 0 := by simp [truncQ]

theorem truncQ_one : truncQ 1 = 1 := by simp [truncQ]

theorem truncQ_neg (q : ℚ) : truncQ (-q) = -truncQ q := by
  simp [truncQ, Rat.num_neg, Int.neg_tdiv]

/-- Unfolding of `App.update` once the `"Buildings"` layer and the head
layer are identified. -/
theorem update_eq (a : App) (dt : ℚ) (p : Player) (m : TideMap) (bl l0 : Layer)
    (h1 : m.layers.find? (fun l => l.id == "Buildings") = some bl)
    (h2 : m.layers.head? = some l0) :
    App.update a dt p m = some (updateCore dt a p bl l0) := by
  unfold App.update; rw [h1, h2]

/-- A successful `find?` forces the layer list to be nonempty, so the
head layer exists. -/
theorem head_of_find (m : TideMap) (bl : Layer)
    (h : m.layers.find? (fun l => l.id == "Buildings") = some bl) :
    ∃ l0, m.layers.head? = some l0 := by
  cases hm : m.layers with
  | nil => rw [hm] at h; simp [List.find?] at h
  | cons l ls => exact ⟨l, rfl⟩

/-- The facing/animation block never touches position or offsets. -/
theorem faceUpdate_pos (a : App) (t : Nat) (p : Player) :
    (faceUpdate a t p).x = p.x ∧ (faceUpdate a t p).y = p.y ∧
    (faceUpdate a t p).offset_x = p.offset_x ∧ (faceUpdate a t p).offset_y = p.offset_y := by
  unfold faceUpdate; split_ifs <;> simp

/-- The function `adjusted_pos` only reads position and offsets, so it is unchanged
by the facing block. -/
theorem adjusted_pos_faceUpdate (a : App) (t : Nat) (p : Player) (dx dy : ℚ) :
    (faceUpdate a t p).adjusted_pos dx dy = p.adjusted_pos dx dy := by
  obtain ⟨h1, h2, h3, h4⟩ := faceUpdate_pos a t p
  simp [Player.adjusted_pos, h1, h2, h3, h4]

/-- Calling `move_horiz` with the clamp flag set: the cell never changes, the
vertical state is untouched, and a crossing pins the offset to ±7.99. -/
theorem move_horiz_clamp (p : Player) (d : ℚ) :
    (p.move_horiz d true).x = p.x ∧ (p.move_horiz d true).y = p.y ∧
    (p.move_horiz d true).offset_y = p.offset_y ∧
    (d > 0 → p.offset_x + d > 8 → (p.move_horiz d true).offset_x = 799 / 100) ∧
    (d < 0 → p.offset_x + d < -8 → (p.move_horiz d true).offset_x = -(799 / 100)) := by
  simp only [Player.move_horiz]
  split_ifs with h1 h2
  · refine ⟨by simp, by simp, by simp, fun hd hcr => ?_, fun hd hcr => by simp⟩
    exact absurd h1.1 (by linarith)
  · refine ⟨by simp, by simp, by simp, fun hd hcr => by simp, fun hd hcr => ?_⟩
    exact absurd h2.1 (by linarith)
  · push_neg at h1 h2
    refine ⟨by simp, by simp, by simp, fun hd hcr => ?_, fun hd hcr => ?_⟩
    · exact absurd (h2 hd) (by linarith)
    · exact absurd (h1 hd) (by linarith)

/-- Calling `move_vert` with the clamp flag set: vertical analogue. -/
theorem move_vert_clamp (p : Player) (d : ℚ) :
    (p.move_vert d true).y = p.y ∧ (p.move_vert d true).x = p.x ∧
    (p.move_vert d true).offset_x = p.offset_x ∧
    (d > 0 → p.offset_y + d > 8 → (p.move_vert d true).offset_y = 799 / 100) ∧
    (d < 0 → p.offset_y + d < -8 → (p.move_vert d true).offset_y = -(799 / 100)) := by
  simp only [Player.move_vert]
  split_ifs with h1 h2
  · refine ⟨by simp, by simp, by simp, fun hd hcr => ?_, fun hd hcr => by simp⟩
    exact absurd h1.1 (by linarith)
  · refine ⟨by simp, by simp, by simp, fun hd hcr => by simp, fun hd hcr => ?_⟩
    exact absurd h2.1 (by linarith)
  · push_neg at h1 h2
    refine ⟨by simp, by simp, by simp, fun hd hcr => ?_, fun hd hcr => ?_⟩
    · exact absurd (h2 hd) (by linarith)
    · exact absurd (h1 hd) (by linarith)

/-- The call `move_horiz` only writes the horizontal axis. -/
theorem move_horiz_vert_state (p : Player) (d : ℚ) (c : Bool) :
    (p.move_horiz d c).y = p.y ∧ (p.move_horiz d c).offset_y = p.offset_y := by
  simp only [Player.move_horiz]
  split_ifs <;> simp

/-- The call `move_vert` only writes the vertical axis. -/
theorem move_vert_horiz_state (p : Player) (d : ℚ) (c : Bool) :
    (p.move_vert d c).x = p.x ∧ (p.move_vert d c).offset_x = p.offset_x := by
  simp only [Player.move_vert]
  split_ifs <;> simp

/-- A single `move_horiz` keeps the horizontal offset inside the closed
interval `[-8, 8]`. -/
theorem move_horiz_bounds (p : Player) (d : ℚ) (c : Bool)
    (hl : -8 ≤ p.offset_x) (hr : p.offset_x ≤ 8) :
    -8 ≤ (p.move_horiz d c).offset_x ∧ (p.move_horiz d c).offset_x ≤ 8 := by
  simp only [Player.move_horiz]
  split_ifs with h1 h2 h3 h4
  · exact ⟨by norm_num, by norm_num⟩
  · exact ⟨by norm_num, by norm_num⟩
  · exact ⟨by norm_num, by norm_num⟩
  · exact ⟨by norm_num, by norm_num⟩
  · push_neg at h1 h3
    dsimp only
    rcases lt_trichotomy d 0 with hd | hd | hd
    · exact ⟨by linarith [h1 hd], by linarith⟩
    · exact ⟨by rw [hd]; simpa using hl, by rw [hd]; simpa using hr⟩
    · exact ⟨by linarith, by linarith [h3 hd]⟩

/-- A single `move_vert` keeps the vertical offset inside the closed
interval `[-8, 8]`. -/
theorem move_vert_bounds (p : Player) (d : ℚ) (c : Bool)
    (hl : -8 ≤ p.offset_y) (hr : p.offset_y ≤ 8) :
    -8 ≤ (p.move_vert d c).offset_y ∧ (p.move_vert d c).offset_y ≤ 8 := by
  simp only [Player.move_vert]
  split_ifs with h1 h2 h3 h4
  · exact ⟨by norm_num, by norm_num⟩
  · exact ⟨by norm_num, by norm_num⟩
  · exact ⟨by norm_num, by norm_num⟩
  · exact ⟨by norm_num, by norm_num⟩
  · push_neg at h1 h3
    dsimp only
    rcases lt_trichotomy d 0 with hd | hd | hd
    · exact ⟨by linarith [h1 hd], by linarith⟩
    · exact ⟨by rw [hd]; simpa using hl, by rw [hd]; simpa using hr⟩
    · exact ⟨by linarith, by linarith [h3 hd]⟩

/-- Every movement sequence keeps both offsets inside `[-8, 8]`. -/
theorem applyMoves_bounds (ms : List MoveCall) (p : Player)
    (hx : -8 ≤ p.offset_x ∧ p.offset_x ≤ 8) (hy : -8 ≤ p.offset_y ∧ p.offset_y ≤ 8) :
    (-8 ≤ (applyMoves p ms).offset_x ∧ (applyMoves p ms).offset_x ≤ 8) ∧
    (-8 ≤ (applyMoves p ms).offset_y ∧ (applyMoves p ms).offset_y ≤ 8) := by
  induction ms generalizing p with
  | nil => exact ⟨hx, hy⟩
  | cons m ms ih =>
    cases m with
    | horiz d c =>
      refine ih (p.move_horiz d c) (move_horiz_bounds p d c hx.1 hx.2) ?_
      obtain ⟨-, h⟩ := move_horiz_vert_state p d c
      rw [h]; exact hy
    | vert d c =>
      refine ih (p.move_vert d c) ?_ (move_vert_bounds p d c hy.1 hy.2)
      obtain ⟨-, h⟩ := move_vert_horiz_state p d c
      rw [h]; exact hx

/-- Calling `move_horiz` with the clamp flag clear: a crossing wraps the offset
to the opposite boundary and steps the cell. -/
theorem move_horiz_commit (p : Player) (d : ℚ) :
    (d > 0 → p.offset_x + d > 8 →
      (p.move_horiz d false).offset_x = -8 ∧ (p.move_horiz d false).x = p.x + 1) ∧
    (d < 0 → p.offset_x + d < -8 →
      (p.move_horiz d false).offset_x = 8 ∧ (p.move_horiz d false).x = p.x - 1) := by
  simp only [Player.move_horiz, Bool.false_eq_true, if_false]
  split_ifs with h1 h2
  · refine ⟨fun hd hcr => ?_, fun hd hcr => by simp⟩
    exact absurd h1.1 (by linarith)
  · refine ⟨fun hd hcr => by simp, fun hd hcr => ?_⟩
    exact absurd h2.1 (by linarith)
  · push_neg at h1 h2
    refine ⟨fun hd hcr => ?_, fun hd hcr => ?_⟩
    · exact absurd (h2 hd) (by linarith)
    · exact absurd (h1 hd) (by linarith)

/-- Calling `move_vert` with the clamp flag clear: vertical analogue. -/
theorem move_vert_commit (p : Player) (d : ℚ) :
    (d > 0 → p.offset_y + d > 8 →
      (p.move_vert d false).offset_y = -8 ∧ (p.move_vert d false).y = p.y + 1) ∧
    (d < 0 → p.offset_y + d < -8 →
      (p.move_vert d false).offset_y = 8 ∧ (p.move_vert d false).y = p.y - 1) := by
  simp only [Player.move_vert, Bool.false_eq_true, if_false]
  split_ifs with h1 h2
  · refine ⟨fun hd hcr => ?_, fun hd hcr => by simp⟩
    exact absurd h1.1 (by linarith)
  · refine ⟨fun hd hcr => by simp, fun hd hcr => ?_⟩
    exact absurd h2.1 (by linarith)
  · push_neg at h1 h2
    refine ⟨fun hd hcr => ?_, fun hd hcr => ?_⟩
    · exact absurd (h2 hd) (by linarith)
    · exact absurd (h1 hd) (by linarith)

/-- The committed player state of one update step: both axes are moved
with the one shared clamp flag probed at the combined adjusted target's
foot cell. -/
theorem updateCore_snd (dt : ℚ) (a : App) (p : Player) (bl l0 : Layer) :
    (updateCore dt a p bl l0).2 =
      ((faceUpdate a (advanceTicks a.ticks dt) p).move_horiz
          (deltaX a.a_pressed a.d_pressed dt)
          (buildingAt bl
            ((p.adjusted_pos (deltaX a.a_pressed a.d_pressed dt) (deltaY a.w_pressed a.s_pressed dt)).1,
             (p.adjusted_pos (deltaX a.a_pressed a.d_pressed dt) (deltaY a.w_pressed a.s_pressed dt)).2 + 1))).move_vert
        (deltaY a.w_pressed a.s_pressed dt)
        (buildingAt bl
          ((p.adjusted_pos (deltaX a.a_pressed a.d_pressed dt) (deltaY a.w_pressed a.s_pressed dt)).1,
           (p.adjusted_pos (deltaX a.a_pressed a.d_pressed dt) (deltaY a.w_pressed a.s_pressed dt)).2 + 1)) := by
  simp only [updateCore, adjusted_pos_faceUpdate]

/-- The committed viewport of one update step is the camera clamp
`adjusted.max(0).min(max_axis)` for some dead-zone-adjusted origin. -/
theorem updateCore_view (dt : ℚ) (a : App) (p : Player) (bl l0 : Layer)
    (hmx : 0 ≤ ((l0.size.1 : Int) - (truncQ ((a.view_w : ℚ) / SCALE)).tdiv 16) * 16)
    (hmy : 0 ≤ ((l0.size.2 : Int) - (truncQ ((a.view_h : ℚ) / SCALE)).tdiv 16) * 16) :
    0 ≤ (updateCore dt a p bl l0).1.view_x ∧
    (updateCore dt a p bl l0).1.view_x ≤
      ((l0.size.1 : Int) - (truncQ ((a.view_w : ℚ) / SCALE)).tdiv 16) * 16 ∧
    0 ≤ (updateCore dt a p bl l0).1.view_y ∧
    (updateCore dt a p bl l0).1.view_y ≤
      ((l0.size.2 : Int) - (truncQ ((a.view_h : ℚ) / SCALE)).tdiv 16) * 16 := by
  simp only [updateCore]
  exact ⟨le_min (le_max_right _ 0) hmx, min_le_right _ _,
         le_min (le_max_right _ 0) hmy, min_le_right _ _⟩

/-- Claim C2 (corrected).  The spec claims each sub-tile offset stays in the
half-open range `[-8, 8)`.  On the code the attainable range is the
*closed* interval `[-8, 8]`: a negative crossing without clamp lands the
offset exactly on `+8` (and a positive delta can land exactly on `+8`
without triggering the strict `> 8` crossing test).  Amended statement:
starting from offsets in `[-8, 8]`, any sequence of
`move_horiz`/`move_vert` calls keeps both offsets in the closed range
`[-8, 8]`; crossing `+8` with the clamp flag clear sets the offset to
`-8` and increments the cell, and crossing `-8` sets the offset to `+8`
and decrements the cell. -/
theorem claim_C2_offset_range (p : Player) (ms : List MoveCall)
    (hx : -8 ≤ p.offset_x ∧ p.offset_x ≤ 8) (hy : -8 ≤ p.offset_y ∧ p.offset_y ≤ 8) :
    ((-8 ≤ (applyMoves p ms).offset_x ∧ (applyMoves p ms).offset_x ≤ 8) ∧
     (-8 ≤ (applyMoves p ms).offset_y ∧ (applyMoves p ms).offset_y ≤ 8)) ∧
    (∀ (q : Player) (d : ℚ), d > 0 → q.offset_x + d > 8 →
      (q.move_horiz d false).offset_x = -8 ∧ (q.move_horiz d false).x = q.x + 1) ∧
    (∀ (q : Player) (d : ℚ), d < 0 → q.offset_x + d < -8 →
      (q.move_horiz d false).offset_x = 8 ∧ (q.move_horiz d false).x = q.x - 1) ∧
    (∀ (q : Player) (d : ℚ), d > 0 → q.offset_y + d > 8 →
      (q.move_vert d false).offset_y = -8 ∧ (q.move_vert d false).y = q.y + 1) ∧
    (∀ (q : Player) (d : ℚ), d < 0 → q.offset_y + d < -8 →
      (q.move_vert d false).offset_y = 8 ∧ (q.move_vert d false).y = q.y - 1) :=
  ⟨applyMoves_bounds ms p hx hy,
   fun q d => (move_horiz_commit q d).1,
   fun q d => (move_horiz_commit q d).2,
   fun q d => (move_vert_commit q d).1,
   fun q d => (move_vert_commit q d).2⟩

/-- Witness for C2 at a concrete input: the initial player, one
uncrossed move. -/
theorem claim_C2_witness :
    ((-8 ≤ (applyMoves (Player.mk 0 0 0 0 none PlayerDir.Down) [MoveCall.horiz (-9) false]).offset_x ∧
      (applyMoves (Player.mk 0 0 0 0 none PlayerDir.Down) [MoveCall.horiz (-9) false]).offset_x ≤ 8) ∧
     (-8 ≤ (applyMoves (Player.mk 0 0 0 0 none PlayerDir.Down) [MoveCall.horiz (-9) false]).offset_y ∧
      (applyMoves (Player.mk 0 0 0 0 none PlayerDir.Down) [MoveCall.horiz (-9) false]).offset_y ≤ 8)) ∧
    (∀ (q : Player) (d : ℚ), d > 0 → q.offset_x + d > 8 →
      (q.move_horiz d false).offset_x = -8 ∧ (q.move_horiz d false).x = q.x + 1) ∧
    (∀ (q : Player) (d : ℚ), d < 0 → q.offset_x + d < -8 →
      (q.move_horiz d false).offset_x = 8 ∧ (q.move_horiz d false).x = q.x - 1) ∧
    (∀ (q : Player) (d : ℚ), d > 0 → q.offset_y + d > 8 →
      (q.move_vert d false).offset_y = -8 ∧ (q.move_vert d false).y = q.y + 1) ∧
    (∀ (q : Player) (d : ℚ), d < 0 → q.offset_y + d < -8 →
      (q.move_vert d false).offset_y = 8 ∧ (q.move_vert d false).y = q.y - 1) :=
  claim_C2_offset_range (Player.mk 0 0 0 0 none PlayerDir.Down)
    [MoveCall.horiz (-9) false] (by norm_num) (by norm_num)

/-- Counterexample for C2 as stated: from the initial player state, a
single leftward move of 9px (a real update step produces it with
`dt = 9/100` and only A held) lands `offset_x` exactly on `+8`, which is
outside the claimed half-open range `[-8, 8)`. -/
theorem claim_C2_counterexample :
    ((Player.mk 0 0 0 0 none PlayerDir.Down).move_horiz (-9) false).offset_x = 8 ∧
    ¬ ((Player.mk 0 0 0 0 none PlayerDir.Down).move_horiz (-9) false).offset_x < 8 ∧
    (App.update (App.mk 0 0 36 36 0 false true false false false) (9 / 100)
        (Player.mk 0 0 0 0 none PlayerDir.Down) mapNoB).map
      (fun r => (r.2.x, r.2.offset_x)) = some (-1, 8) := by
  refine ⟨by norm_num [Player.move_horiz], by norm_num [Player.move_horiz], ?_⟩
  rw [update_eq (App.mk 0 0 36 36 0 false true false false false) (9 / 100)
        (Player.mk 0 0 0 0 none PlayerDir.Down) mapNoB
        (Layer.mk "Buildings" true (50, 50) [])
        (Layer.mk "Buildings" true (50, 50) []) rfl rfl]
  simp only [updateCore, faceUpdate, advanceTicks, deltaX, deltaY, Player.adjusted_pos,
    Player.move_horiz, Player.move_vert, buildingAt, SCALE, List.any_nil, Option.map_some']
  norm_num

/-- Claim C3 (confirmed).  In an update step whose collision probe finds a
`"Buildings"` tile at the adjusted target cell's foot cell
`(adjusted_x, adjusted_y + 1)`, movement is clamped to the current cell:
a crossing offset is pinned to exactly `±7.99`, and the cell index
`(player.x, player.y)` does not change. -/
theorem claim_C3_collision_clamp (dt : ℚ) (a : App) (p : Player) (m : TideMap) (bl : Layer)
    (hfind : m.layers.find? (fun l => l.id == "Buildings") = some bl)
    (hprobe : buildingAt bl
      ((p.adjusted_pos (deltaX a.a_pressed a.d_pressed dt) (deltaY a.w_pressed a.s_pressed dt)).1,
       (p.adjusted_pos (deltaX a.a_pressed a.d_pressed dt) (deltaY a.w_pressed a.s_pressed dt)).2 + 1)
      = true) :
    ∃ a' p', App.update a dt p m = some (a', p') ∧
      p'.x = p.x ∧ p'.y = p.y ∧
      (deltaX a.a_pressed a.d_pressed dt > 0 →
        p.offset_x + deltaX a.a_pressed a.d_pressed dt > 8 → p'.offset_x = 799 / 100) ∧
      (deltaX a.a_pressed a.d_pressed dt < 0 →
        p.offset_x + deltaX a.a_pressed a.d_pressed dt < -8 → p'.offset_x = -(799 / 100)) ∧
      (deltaY a.w_pressed a.s_pressed dt > 0 →
        p.offset_y + deltaY a.w_pressed a.s_pressed dt > 8 → p'.offset_y = 799 / 100) ∧
      (deltaY a.w_pressed a.s_pressed dt < 0 →
        p.offset_y + deltaY a.w_pressed a.s_pressed dt < -8 → p'.offset_y = -(799 / 100)) := by
  obtain ⟨l0, hl0⟩ := head_of_find m bl hfind
  refine ⟨(updateCore dt a p bl l0).1, (updateCore dt a p bl l0).2,
    update_eq a dt p m bl l0 hfind hl0, ?_⟩
  rw [updateCore_snd, hprobe]
  obtain ⟨hx0, hy0, hox0, hoy0⟩ := faceUpdate_pos a (advanceTicks a.ticks dt) p
  obtain ⟨hhx, hhy, hhoy, hhcp, hhcn⟩ :=
    move_horiz_clamp (faceUpdate a (advanceTicks a.ticks dt) p) (deltaX a.a_pressed a.d_pressed dt)
  obtain ⟨hvy, hvx, hvox, hvcp, hvcn⟩ :=
    move_vert_clamp
      ((faceUpdate a (advanceTicks a.ticks dt) p).move_horiz (deltaX a.a_pressed a.d_pressed dt) true)
      (deltaY a.w_pressed a.s_pressed dt)
  refine ⟨?_, ?_, ?_, ?_, ?_, ?_⟩
  · rw [hvx, hhx, hx0]
  · rw [hvy, hhy, hy0]
  · intro hd hcr
    rw [hvox]
    exact hhcp hd (by rw [hox0]; exact hcr)
  · intro hd hcr
    rw [hvox]
    exact hhcn hd (by rw [hox0]; exact hcr)
  · intro hd hcr
    refine hvcp hd ?_
    rw [hhoy, hoy0]
    exact hcr
  · intro hd hcr
    refine hvcn hd ?_
    rw [hhoy, hoy0]
    exact hcr

/-- Witness for C3: rightward move at `(0,1)` with offsets `(7.5, 0)`,
building tile at `(1,2)` (the foot of the adjusted target `(1,1)`). -/
theorem claim_C3_witness :
    ∃ a' p',
      App.update (App.mk 0 0 36 36 0 true false false false false) (1 / 100)
        (Player.mk 0 1 (15 / 2) 0 none PlayerDir.Down) mapB12 = some (a', p') ∧
      p'.x = (Player.mk 0 1 (15 / 2) 0 none PlayerDir.Down).x ∧
      p'.y = (Player.mk 0 1 (15 / 2) 0 none PlayerDir.Down).y ∧
      (deltaX false true (1 / 100) > 0 →
        (Player.mk 0 1 (15 / 2) 0 none PlayerDir.Down).offset_x + deltaX false true (1 / 100) > 8 →
        p'.offset_x = 799 / 100) ∧
      (deltaX false true (1 / 100) < 0 →
        (Player.mk 0 1 (15 / 2) 0 none PlayerDir.Down).offset_x + deltaX false true (1 / 100) < -8 →
        p'.offset_x = -(799 / 100)) ∧
      (deltaY false false (1 / 100) > 0 →
        (Player.mk 0 1 (15 / 2) 0 none PlayerDir.Down).offset_y + deltaY false false (1 / 100) > 8 →
        p'.offset_y = 799 / 100) ∧
      (deltaY false false (1 / 100) < 0 →
        (Player.mk 0 1 (15 / 2) 0 none PlayerDir.Down).offset_y + deltaY false false (1 / 100) < -8 →
        p'.offset_y = -(799 / 100)) :=
  claim_C3_collision_clamp (1 / 100) (App.mk 0 0 36 36 0 true false false false false)
    (Player.mk 0 1 (15 / 2) 0 none PlayerDir.Down) mapB12
    (Layer.mk "Buildings" true (50, 50) [MapTile.mk 1 2]) rfl
    (by norm_num [buildingAt, Player.adjusted_pos, deltaX, deltaY,
          List.any_cons, List.any_nil, Prod.mk.injEq])

/-- Claim C4 (corrected).  The spec claims the two axes are resolved
independently, each depending only on its own delta and its own
horizontally/vertically adjusted target cell.  In the code a *single*
clamp flag is probed once, at the foot cell of the *combined* adjusted
target (x adjusted by the horizontal delta, y by the vertical delta),
and that one flag clamps or commits both axes.  Amended statement: both
axes are moved by the same clamp-or-commit rule with one shared flag
probed at the combined adjusted target's foot cell; each move touches
only its own axis's state. -/
theorem claim_C4_shared_clamp_flag (dt : ℚ) (a : App) (p : Player) (m : TideMap) (bl : Layer)
    (hfind : m.layers.find? (fun l => l.id == "Buildings") = some bl) :
    (∃ a' p', App.update a dt p m = some (a', p') ∧
      p' = ((faceUpdate a (advanceTicks a.ticks dt) p).move_horiz
              (deltaX a.a_pressed a.d_pressed dt)
              (buildingAt bl
                ((p.adjusted_pos (deltaX a.a_pressed a.d_pressed dt)
                    (deltaY a.w_pressed a.s_pressed dt)).1,
                 (p.adjusted_pos (deltaX a.a_pressed a.d_pressed dt)
                    (deltaY a.w_pressed a.s_pressed dt)).2 + 1))).move_vert
            (deltaY a.w_pressed a.s_pressed dt)
            (buildingAt bl
              ((p.adjusted_pos (deltaX a.a_pressed a.d_pressed dt)
                  (deltaY a.w_pressed a.s_pressed dt)).1,
               (p.adjusted_pos (deltaX a.a_pressed a.d_pressed dt)
                  (deltaY a.w_pressed a.s_pressed dt)).2 + 1))) ∧
    (∀ (q : Player) (d : ℚ) (c : Bool),
      (q.move_horiz d c).y = q.y ∧ (q.move_horiz d c).offset_y = q.offset_y) ∧
    (∀ (q : Player) (d : ℚ) (c : Bool),
      (q.move_vert d c).x = q.x ∧ (q.move_vert d c).offset_x = q.offset_x) := by
  obtain ⟨l0, hl0⟩ := head_of_find m bl hfind
  exact ⟨⟨(updateCore dt a p bl l0).1, (updateCore dt a p bl l0).2,
      update_eq a dt p m bl l0 hfind hl0, updateCore_snd dt a p bl l0⟩,
    move_horiz_vert_state, move_vert_horiz_state⟩

/-- Witness for C4 at a concrete input. -/
theorem claim_C4_witness :
    (∃ a' p', App.update (App.mk 0 0 36 36 0 false false false false false) 0
        (Player.mk 0 0 0 0 none PlayerDir.Down) mapNoB = some (a', p') ∧
      p' = ((faceUpdate (App.mk 0 0 36 36 0 false false false false false)
              (advanceTicks (App.mk 0 0 36 36 0 false false false false false).ticks 0)
              (Player.mk 0 0 0 0 none PlayerDir.Down)).move_horiz
              (deltaX false false 0)
              (buildingAt (Layer.mk "Buildings" true (50, 50) [])
                (((Player.mk 0 0 0 0 none PlayerDir.Down).adjusted_pos (deltaX false false 0)
                    (deltaY false false 0)).1,
                 ((Player.mk 0 0 0 0 none PlayerDir.Down).adjusted_pos (deltaX false false 0)
                    (deltaY false false 0)).2 + 1))).move_vert
            (deltaY false false 0)
            (buildingAt (Layer.mk "Buildings" true (50, 50) [])
              (((Player.mk 0 0 0 0 none PlayerDir.Down).adjusted_pos (deltaX false false 0)
                  (deltaY false false 0)).1,
               ((Player.mk 0 0 0 0 none PlayerDir.Down).adjusted_pos (deltaX false false 0)
                  (deltaY false false 0)).2 + 1))) ∧
    (∀ (q : Player) (d : ℚ) (c : Bool),
      (q.move_horiz d c).y = q.y ∧ (q.move_horiz d c).offset_y = q.offset_y) ∧
    (∀ (q : Player) (d : ℚ) (c : Bool),
      (q.move_vert d c).x = q.x ∧ (q.move_vert d c).offset_x = q.offset_x) :=
  claim_C4_shared_clamp_flag 0 (App.mk 0 0 36 36 0 false false false false false)
    (Player.mk 0 0 0 0 none PlayerDir.Down) mapNoB
    (Layer.mk "Buildings" true (50, 50) []) rfl

/-- Counterexample for C4 as stated: two update steps with identical
horizontal input (D held, `delta_x = 1`, offsets `(7.5, 7.5)`, the
obstruction map holding only the tile `(1,2)`) differing *only* in the
vertical key S.  With S up the horizontal move commits (`x` becomes 1,
offset wraps to `-8`); with S down the vertical delta steers the single
probe into the building at `(1,2)` and the horizontal move is clamped
(`x` stays 0, offset pinned to 7.99) — so the horizontal outcome does
not depend only on the horizontal delta and the horizontally adjusted
target cell. -/
theorem claim_C4_counterexample :
    (App.update (App.mk 0 0 36 36 0 true false false false false) (1 / 100)
        (Player.mk 0 0 (15 / 2) (15 / 2) none PlayerDir.Down) mapB12).map
      (fun r => (r.2.x, r.2.offset_x)) = some (1, -8) ∧
    (App.update (App.mk 0 0 36 36 0 true false false true false) (1 / 100)
        (Player.mk 0 0 (15 / 2) (15 / 2) none PlayerDir.Down) mapB12).map
      (fun r => (r.2.x, r.2.offset_x)) = some (0, 799 / 100) ∧
    App.mk 0 0 36 36 0 true false false true false
      = { App.mk 0 0 36 36 0 true false false false false with s_pressed := true } := by
  refine ⟨?_, ?_, rfl⟩
  · rw [update_eq (App.mk 0 0 36 36 0 true false false false false) (1 / 100)
        (Player.mk 0 0 (15 / 2) (15 / 2) none PlayerDir.Down) mapB12
        (Layer.mk "Buildings" true (50, 50) [MapTile.mk 1 2])
        (Layer.mk "Buildings" true (50, 50) [MapTile.mk 1 2]) rfl rfl]
    simp only [updateCore, faceUpdate, advanceTicks, deltaX, deltaY, Player.adjusted_pos,
      Player.move_horiz, Player.move_vert, buildingAt, SCALE, List.any_cons, List.any_nil,
      Prod.mk.injEq, Option.map_some']
    norm_num
  · rw [update_eq (App.mk 0 0 36 36 0 true false false true false) (1 / 100)
        (Player.mk 0 0 (15 / 2) (15 / 2) none PlayerDir.Down) mapB12
        (Layer.mk "Buildings" true (50, 50) [MapTile.mk 1 2])
        (Layer.mk "Buildings" true (50, 50) [MapTile.mk 1 2]) rfl rfl]
    simp only [updateCore, faceUpdate, advanceTicks, deltaX, deltaY, Player.adjusted_pos,
      Player.move_horiz, Player.move_vert, buildingAt, SCALE, List.any_cons, List.any_nil,
      Prod.mk.injEq, Option.map_some']
    norm_num

/-- Claim C5 (corrected).  The spec claims the axis delta is zero when both
opposing keys on an axis are held.  In the code each axis delta is an
`if/else if` chain, so the first-tested key wins outright: A (left)
overrides D (right) and W (up) overrides S (down); holding both opposing
keys yields the *negative* delta, not zero.  Amended statement: the
delta is the speed constant (100 px/s) times elapsed seconds, signed by
the held direction (left/up negative); it is zero exactly when neither
key on the axis is held, and when both are held the negative key wins. -/
theorem claim_C5_axis_deltas (dt : ℚ) :
    deltaX false false dt = 0 ∧ deltaX true false dt = -100 * dt ∧
    deltaX false true dt = 100 * dt ∧ deltaX true true dt = -100 * dt ∧
    deltaY false false dt = 0 ∧ deltaY true false dt = -100 * dt ∧
    deltaY false true dt = 100 * dt ∧ deltaY true true dt = -100 * dt :=
  ⟨rfl, rfl, rfl, rfl, rfl, rfl, rfl, rfl⟩

/-- Counterexample for C5 as stated: with both A and D held and
`dt = 1`, the horizontal delta is `-100`, not `0`; and a full update
step from the origin with both keys held moves the player left by 1px
(`dt = 1/100`) instead of leaving it in place. -/
theorem claim_C5_counterexample :
    deltaX true true 1 = -100 ∧ ¬ deltaX true true 1 = 0 ∧
    (App.update (App.mk 0 0 36 36 0 true true false false false) (1 / 100)
        (Player.mk 0 0 0 0 none PlayerDir.Down) mapNoB).map (fun r => r.2.offset_x)
      = some (-1) := by
  refine ⟨by norm_num [deltaX], by norm_num [deltaX], ?_⟩
  rw [update_eq (App.mk 0 0 36 36 0 true true false false false) (1 / 100)
      (Player.mk 0 0 0 0 none PlayerDir.Down) mapNoB
      (Layer.mk "Buildings" true (50, 50) [])
      (Layer.mk "Buildings" true (50, 50) []) rfl rfl]
  simp only [updateCore, faceUpdate, advanceTicks, deltaX, deltaY, Player.adjusted_pos,
    Player.move_horiz, Player.move_vert, buildingAt, SCALE, List.any_nil, Option.map_some']
  norm_num

/-- Claim C6 (corrected).  The spec claims the committed viewport origin
lies in `[0, map_pixel_size − viewport_pixel_size]` on each axis.  The
code clamps to `max_axis = (map_cells − viewport_pixels.tdiv 16) * 16`,
where the truncating division over-credits a viewport whose
(zoom-adjusted) pixel size is not a multiple of 16, so the committed
origin can exceed `map_pixel_size − viewport_pixel_size` (and when the
bound itself is negative the `.max(0).min(max)` order commits a
negative origin).  Amended statement: after every update step the
origin lies in `[0, (map_cells − viewport.tdiv 16) * 16]` on each axis,
provided that bound is nonnegative. -/
theorem claim_C6_camera_clamp (dt : ℚ) (a : App) (p : Player) (m : TideMap) (bl l0 : Layer)
    (hfind : m.layers.find? (fun l => l.id == "Buildings") = some bl)
    (hhead : m.layers.head? = some l0)
    (hmx : 0 ≤ ((l0.size.1 : Int) - (truncQ ((a.view_w : ℚ) / SCALE)).tdiv 16) * 16)
    (hmy : 0 ≤ ((l0.size.2 : Int) - (truncQ ((a.view_h : ℚ) / SCALE)).tdiv 16) * 16) :
    ∃ a' p', App.update a dt p m = some (a', p') ∧
      0 ≤ a'.view_x ∧
      a'.view_x ≤ ((l0.size.1 : Int) - (truncQ ((a.view_w : ℚ) / SCALE)).tdiv 16) * 16 ∧
      0 ≤ a'.view_y ∧
      a'.view_y ≤ ((l0.size.2 : Int) - (truncQ ((a.view_h : ℚ) / SCALE)).tdiv 16) * 16 :=
  ⟨(updateCore dt a p bl l0).1, (updateCore dt a p bl l0).2,
   update_eq a dt p m bl l0 hfind hhead, updateCore_view dt a p bl l0 hmx hmy⟩

/-- Witness for C6: a 50×50-cell map with a 24px-wide (zoom-adjusted)
viewport. -/
theorem claim_C6_witness :
    ∃ a' p',
      App.update (App.mk 0 0 36 36 0 false false false false false) 0
        (Player.mk 0 0 0 0 none PlayerDir.Down) mapNoB = some (a', p') ∧
      0 ≤ a'.view_x ∧
      a'.view_x ≤ (((50 : Nat) : Int) -
        (truncQ (((36 : Nat) : ℚ) / SCALE)).tdiv 16) * 16 ∧
      0 ≤ a'.view_y ∧
      a'.view_y ≤ (((50 : Nat) : Int) -
        (truncQ (((36 : Nat) : ℚ) / SCALE)).tdiv 16) * 16 :=
  claim_C6_camera_clamp 0 (App.mk 0 0 36 36 0 false false false false false)
    (Player.mk 0 0 0 0 none PlayerDir.Down) mapNoB
    (Layer.mk "Buildings" true (50, 50) [])
    (Layer.mk "Buildings" true (50, 50) []) rfl rfl
    (by rw [show (((36 : Nat) : ℚ) / SCALE) = ((24 : ℚ)) by norm_num [SCALE]]
        rw [truncQ_ofNat]
        decide)
    (by rw [show (((36 : Nat) : ℚ) / SCALE) = ((24 : ℚ)) by norm_num [SCALE]]
        rw [truncQ_ofNat]
        decide)

/-- Counterexample for C6 as stated: a 2×2-cell map (32px wide) with a
zoom-adjusted viewport of 24px.  The code's bound is
`(2 − 24.tdiv 16) · 16 = 16`, and with the player far right the committed
origin is 16, which exceeds the claimed bound
`map_pixel − viewport_pixel = 32 − 24 = 8`. -/
theorem claim_C6_counterexample :
    (App.update (App.mk 0 0 36 36 0 false false false false false) 0
        (Player.mk 10 0 0 0 none PlayerDir.Down) mapSmall).map (fun r => r.1.view_x)
      = some 16 ∧
    truncQ ((36 : ℚ) / SCALE) = 24 ∧
    ¬ ((16 : Int) ≤ 2 * 16 - 24) := by
  refine ⟨?_, ?_, by decide⟩
  · rw [update_eq (App.mk 0 0 36 36 0 false false false false false) 0
        (Player.mk 10 0 0 0 none PlayerDir.Down) mapSmall
        (Layer.mk "Buildings" true (2, 2) [])
        (Layer.mk "Buildings" true (2, 2) []) rfl rfl]
    simp only [updateCore, faceUpdate, advanceTicks, deltaX, deltaY, Player.adjusted_pos,
      Player.move_horiz, Player.move_vert, buildingAt, SCALE, List.any_nil, Option.map_some']
    norm_num [truncQ_zero, truncQ_ofNat]
    all_goals decide
  · rw [show ((36 : ℚ) / SCALE) = ((24 : ℚ)) by norm_num [SCALE]]
    exact truncQ_ofNat 24

/-- Claim C7 (confirmed).  The tile/frame index resolver is a pure function
producing `src_x = (index mod cols) * tile_w`,
`src_y = (index div cols + row_offset) * tile_h`; flipping shifts the
x origin right by `tile_w` and negates the width, leaving the height
unchanged.  For cols=4, tile 16×16, index=5 the source rectangle is
`(16,16,16,16)` unflipped and `(32,16,-16,16)` flipped. -/
theorem claim_C7_index_resolution (cols tw th idx yoff : Nat) (pos off view : Int × Int)
    (hcols : 0 < cols) :
    (image_for_tile_reference cols (tw, th) idx yoff pos off view false).src_rect
      = (((idx % cols * tw : Nat) : Int), (((idx / cols + yoff) * th : Nat) : Int),
         (tw : Int), (th : Int)) ∧
    (image_for_tile_reference cols (tw, th) idx yoff pos off view true).src_rect
      = (((idx % cols * tw : Nat) : Int) + (tw : Int), (((idx / cols + yoff) * th : Nat) : Int),
         -(tw : Int), (th : Int)) ∧
    (image_for_tile_reference 4 (16, 16) 5 0 pos off view false).src_rect
      = (16, 16, 16, 16) ∧
    (image_for_tile_reference 4 (16, 16) 5 0 pos off view true).src_rect
      = (32, 16, -16, 16) :=
  ⟨rfl, rfl, rfl, rfl⟩

/-- Witness for C7 at cols = 4. -/
theorem claim_C7_witness :
    (image_for_tile_reference 4 (16, 16) 5 0 (0, 0) (0, 0) (0, 0) false).src_rect
      = (((5 % 4 * 16 : Nat) : Int), (((5 / 4 + 0) * 16 : Nat) : Int),
         ((16 : Nat) : Int), ((16 : Nat) : Int)) ∧
    (image_for_tile_reference 4 (16, 16) 5 0 (0, 0) (0, 0) (0, 0) true).src_rect
      = (((5 % 4 * 16 : Nat) : Int) + ((16 : Nat) : Int), (((5 / 4 + 0) * 16 : Nat) : Int),
         -((16 : Nat) : Int), ((16 : Nat) : Int)) ∧
    (image_for_tile_reference 4 (16, 16) 5 0 (0, 0) (0, 0) (0, 0) false).src_rect
      = (16, 16, 16, 16) ∧
    (image_for_tile_reference 4 (16, 16) 5 0 (0, 0) (0, 0) (0, 0) true).src_rect
      = (32, 16, -16, 16) :=
  claim_C7_index_resolution 4 16 16 5 0 (0, 0) (0, 0) (0, 0) (by decide)

/-- Claim C8 (confirmed).  The animation frame offset is
`(elapsed_ticks / 150) mod frame_count`, where `elapsed_ticks` is
`current_tick - movement_start_tick` (`u32` subtraction; exact whenever
the start tick is no later than the current tick) and the offset is
forced to 0 when `movement_start_tick` is absent.  With period 150 and
3 frames: elapsed 0 → frame 0, 149 → 0, 150 → 1, 450 → 0. -/
theorem claim_C8_animation_clock :
    (∀ e c, anim_frame (some (e, c)) = e / 150 % c) ∧
    anim_frame none = 0 ∧
    (∀ t s, s ≤ t → t < 2 ^ 32 → player_ticks t (some s) = t - s) ∧
    (∀ t, player_ticks t none = 0) ∧
    anim_frame (some (0, 3)) = 0 ∧ anim_frame (some (149, 3)) = 0 ∧
    anim_frame (some (150, 3)) = 1 ∧ anim_frame (some (450, 3)) = 0 := by
  refine ⟨fun e c => rfl, rfl, ?_, fun t => rfl, by decide, by decide, by decide, by decide⟩
  intro t s h1 h2
  simp only [player_ticks, u32sub]
  omega

/-- Witness for C8: elapsed ticks of a motion started at tick 300 and
sampled at tick 450. -/
theorem claim_C8_witness : player_ticks 450 (some 300) = 450 - 300 :=
  claim_C8_animation_clock.2.2.1 450 300 (by norm_num) (by norm_num)

/-- Claim C9 (confirmed).  Cutscene character-placement direction codes are
translated `0→Up, 1→Right, 2→Down, 3→Left`; any other code is rejected
(the source panics with `unreachable!`).  This table differs from the
`PlayerDir` enum's own discriminants `0→Down, 1→Right, 2→Up, 3→Left`:
code 0 yields the direction whose discriminant is 2, and code 2 the
direction whose discriminant is 0. -/
theorem claim_C9_direction_codes :
    dirForCode 0 = some PlayerDir.Up ∧ dirForCode 1 = some PlayerDir.Right ∧
    dirForCode 2 = some PlayerDir.Down ∧ dirForCode 3 = some PlayerDir.Left ∧
    (∀ c, 4 ≤ c → dirForCode c = none) ∧
    PlayerDir.Down.toUsize = 0 ∧ PlayerDir.Right.toUsize = 1 ∧
    PlayerDir.Up.toUsize = 2 ∧ PlayerDir.Left.toUsize = 3 ∧
    (dirForCode 0).map PlayerDir.toUsize ≠ some 0 ∧
    (dirForCode 2).map PlayerDir.toUsize ≠ some 2 := by
  refine ⟨rfl, rfl, rfl, rfl, ?_, rfl, rfl, rfl, rfl, by decide, by decide⟩
  intro c hc
  obtain ⟨n, rfl⟩ : ∃ n, c = n + 4 := ⟨c - 4, by omega⟩
  rfl

/-- Witness for C9: code 9 is rejected. -/
theorem claim_C9_witness : dirForCode 9 = none :=
  claim_C9_direction_codes.2.2.2.2.1 9 (by norm_num)

/-- The trigger never fires with no previous tile. -/
theorem interleaveHit_none (p : Player) (x y : Int) :
    interleaveHit p x y none = false := by
  simp [interleaveHit, lastLt]

/-- Running `draw_layer` on a row-major 3-tile row at `y = player.y + 1` with
columns `player.x − 1`, `player.x`, `player.x + 1`: the player block is
emitted exactly between the first and second tile of the row, before the
second tile's culling test, and independently of the viewport. -/
theorem drawLayer_row3 (p : Player) (vx vy vw vh : Int) :
    drawLayer (Layer.mk "Front" true (50, 50)
        [MapTile.mk (p.x - 1) (p.y + 1), MapTile.mk p.x (p.y + 1), MapTile.mk (p.x + 1) (p.y + 1)])
      (some p) vx vy vw vh =
      (if cullTile vx vy vw vh (p.x - 1) (p.y + 1) then [] else [DrawOp.tile (p.x - 1) (p.y + 1)]) ++
      [DrawOp.player] ++
      (if cullTile vx vy vw vh p.x (p.y + 1) then [] else [DrawOp.tile p.x (p.y + 1)]) ++
      (if cullTile vx vy vw vh (p.x + 1) (p.y + 1) then [] else [DrawOp.tile (p.x + 1) (p.y + 1)]) := by
  have h1 : interleaveHit p (p.x - 1) (p.y + 1) none = false := interleaveHit_none p _ _
  have h2 : interleaveHit p p.x (p.y + 1) (some (p.x - 1, p.y + 1)) = true := by
    have hlt : (p.x - 1 : Int) < p.x := by omega
    simp [interleaveHit, lastLt, hlt]
  have h3 : interleaveHit p (p.x + 1) (p.y + 1) (some (p.x, p.y + 1)) = false := by
    simp [interleaveHit, lastLt]
  simp only [drawLayer]
  rw [if_neg (by decide)]
  simp only [drawLayerGo, h1, h2, h3, if_true, Bool.false_eq_true, if_false,
    List.nil_append, List.append_nil, List.append_assoc]

/-- The render loop on a 3-layer list: the first two layers are drawn
(the player handed only to index 1), the loop breaks before the last. -/
theorem renderOps_cons3 (p : Player) (chs : List Character) (l0 l1 l2 : Layer)
    (vx vy ww wh : Int) :
    renderOps p chs [l0, l1, l2] vx vy ww wh =
      some (drawLayer l0 none vx vy (ww.tdiv 16 + vx.tdiv 16) (wh.tdiv 16 + vy.tdiv 16) ++
            drawLayer l1 (some p) vx vy (ww.tdiv 16 + vx.tdiv 16) (wh.tdiv 16 + vy.tdiv 16) ++
            (chs.map drawCharacter).flatten ++
            drawLayer l2 none vx vy (ww.tdiv 16 + vx.tdiv 16) (wh.tdiv 16 + vy.tdiv 16)) := by
  simp [renderOps, renderLoop, List.append_assoc]

/-- Claim C1 (confirmed).  In the interleave layer (index 1), for a
pre-sorted row of tiles at `y = player.y + 1` with columns
`player.x − 1, player.x, player.x + 1`, the player's draw block is
emitted strictly between the draw calls for columns `player.x − 1` and
`player.x` — immediately before the first tile of that row whose column
is `≥ player.x`, whose predecessor's column is `< player.x`.  The
equation holds for *every* viewport: culling only suppresses the
individual tile draws, after the interleave decision, which uses
full-map coordinates. -/
theorem claim_C1_depth_interleave (p : Player) (chs : List Character)
    (l0 l2 : Layer) (vx vy vw vh ww wh : Int) :
    (drawLayer (Layer.mk "Front" true (50, 50)
        [MapTile.mk (p.x - 1) (p.y + 1), MapTile.mk p.x (p.y + 1), MapTile.mk (p.x + 1) (p.y + 1)])
      (some p) vx vy vw vh =
      (if cullTile vx vy vw vh (p.x - 1) (p.y + 1) then [] else [DrawOp.tile (p.x - 1) (p.y + 1)]) ++
      [DrawOp.player] ++
      (if cullTile vx vy vw vh p.x (p.y + 1) then [] else [DrawOp.tile p.x (p.y + 1)]) ++
      (if cullTile vx vy vw vh (p.x + 1) (p.y + 1) then [] else [DrawOp.tile (p.x + 1) (p.y + 1)])) ∧
    renderOps p chs
        [l0,
         Layer.mk "Front" true (50, 50)
           [MapTile.mk (p.x - 1) (p.y + 1), MapTile.mk p.x (p.y + 1), MapTile.mk (p.x + 1) (p.y + 1)],
         l2] vx vy ww wh =
      some (drawLayer l0 none vx vy (ww.tdiv 16 + vx.tdiv 16) (wh.tdiv 16 + vy.tdiv 16) ++
            ((if cullTile vx vy (ww.tdiv 16 + vx.tdiv 16) (wh.tdiv 16 + vy.tdiv 16) (p.x - 1) (p.y + 1)
                then [] else [DrawOp.tile (p.x - 1) (p.y + 1)]) ++
             [DrawOp.player] ++
             (if cullTile vx vy (ww.tdiv 16 + vx.tdiv 16) (wh.tdiv 16 + vy.tdiv 16) p.x (p.y + 1)
                then [] else [DrawOp.tile p.x (p.y + 1)]) ++
             (if cullTile vx vy (ww.tdiv 16 + vx.tdiv 16) (wh.tdiv 16 + vy.tdiv 16) (p.x + 1) (p.y + 1)
                then [] else [DrawOp.tile (p.x + 1) (p.y + 1)])) ++
            (chs.map drawCharacter).flatten ++
            drawLayer l2 none vx vy (ww.tdiv 16 + vx.tdiv 16) (wh.tdiv 16 + vy.tdiv 16)) := by
  refine ⟨drawLayer_row3 p vx vy vw vh, ?_⟩
  rw [renderOps_cons3, drawLayer_row3]

/-- A layer drawn without the player never emits the player block. -/
theorem player_not_mem_drawLayerGo_none (vx vy vw vh : Int) :
    ∀ (ts : List MapTile) (last : Option (Int × Int)),
      DrawOp.player ∉ drawLayerGo none vx vy vw vh ts last
  | [], _ => by simp [drawLayerGo]
  | t :: ts, last => by
    simp only [drawLayerGo, Bool.false_eq_true, if_false, List.nil_append, List.mem_append]
    rintro (h | h)
    · split at h <;> simp_all
    · exact player_not_mem_drawLayerGo_none vx vy vw vh ts _ h

/-- If the tile loop emits the player block, the interleave trigger
fired somewhere along the tile sequence. -/
theorem drawLayerGo_player_trigger (p : Player) (vx vy vw vh : Int) :
    ∀ (ts : List MapTile) (last : Option (Int × Int)),
      DrawOp.player ∈ drawLayerGo (some p) vx vy vw vh ts last →
      hasTrigger p ts last = true
  | [], last => by simp [drawLayerGo]
  | t :: ts, last => by
    simp only [drawLayerGo, hasTrigger, List.mem_append, Bool.or_eq_true]
    rintro ((h | h) | h)
    · by_cases hi : interleaveHit p t.x t.y last = true
      · exact Or.inl hi
      · rw [if_neg hi] at h
        simp at h
    · exfalso
      split at h <;> simp_all
    · exact Or.inr (drawLayerGo_player_trigger p vx vy vw vh ts _ h)

/-- Running `draw_layer` without a player never emits the player block. -/
theorem player_not_mem_drawLayer_none (l : Layer) (vx vy vw vh : Int) :
    DrawOp.player ∉ drawLayer l none vx vy vw vh := by
  unfold drawLayer
  split
  · simp
  · exact player_not_mem_drawLayerGo_none vx vy vw vh l.tiles none

/-- Running `draw_layer` with the player emits no player block when the trigger
never fires on the layer's tiles. -/
theorem player_not_mem_drawLayer_some (l : Layer) (p : Player) (vx vy vw vh : Int)
    (htrig : hasTrigger p l.tiles none = false) :
    DrawOp.player ∉ drawLayer l (some p) vx vy vw vh := by
  unfold drawLayer
  split
  · simp
  · intro h
    rw [drawLayerGo_player_trigger p vx vy vw vh l.tiles none h] at htrig
    cases htrig

/-- The render loop emits no player block from index 2 onward. -/
theorem player_not_mem_renderLoop_ge2 (p : Player) (vx vy vw vh : Int) (n : Nat) :
    ∀ (ls : List Layer) (i : Nat), 2 ≤ i →
      DrawOp.player ∉ renderLoop p vx vy vw vh n i ls
  | [], _, _ => by simp [renderLoop]
  | l :: ls, i, hi => by
    simp only [renderLoop]
    split
    · simp
    · simp only [List.mem_append]
      rintro (h | h)
      · rw [if_neg (by omega)] at h
        exact player_not_mem_drawLayer_none l vx vy vw vh h
      · exact player_not_mem_renderLoop_ge2 p vx vy vw vh n ls (i + 1) (by omega) h

/-- The render loop starting at index 1 emits no player block when its
first layer (the interleave layer) is trigger-free. -/
theorem player_not_mem_renderLoop_one (p : Player) (vx vy vw vh : Int) (n : Nat)
    (ls : List Layer)
    (h : ∀ l1, ls.head? = some l1 → hasTrigger p l1.tiles none = false) :
    DrawOp.player ∉ renderLoop p vx vy vw vh n 1 ls := by
  cases ls with
  | nil => simp [renderLoop]
  | cons l ls =>
    simp only [renderLoop]
    split
    · simp
    · simp only [List.mem_append]
      rintro (hm | hm)
      · rw [if_pos trivial] at hm
        exact player_not_mem_drawLayer_some l p vx vy vw vh (h l rfl) hm
      · exact player_not_mem_renderLoop_ge2 p vx vy vw vh n ls 2 (by omega) hm

/-- The render loop from the start emits no player block when the layer
at index 1 is trigger-free. -/
theorem player_not_mem_renderLoop_zero (p : Player) (vx vy vw vh : Int) (n : Nat)
    (ls : List Layer)
    (h : ∀ l1, ls.get? 1 = some l1 → hasTrigger p l1.tiles none = false) :
    DrawOp.player ∉ renderLoop p vx vy vw vh n 0 ls := by
  cases ls with
  | nil => simp [renderLoop]
  | cons l ls =>
    simp only [renderLoop]
    split
    · simp
    · simp only [List.mem_append]
      rintro (hm | hm)
    
      · rw [if_neg (by omega)] at hm
        exact player_not_mem_drawLayer_none l vx vy vw vh hm
      · refine player_not_mem_renderLoop_one p vx vy vw vh n ls ?_ hm
        intro l1 h1
        apply h
        cases ls with
        | nil => cases h1
        | cons l' ls' =>
          cases h1
          rfl

/-- Character draws never emit the player block. -/
theorem player_not_mem_charOps (chs : List Character) :
    DrawOp.player ∉ (chs.map drawCharacter).flatten := by
  induction chs with
  | nil => simp
  | cons c cs ih =>
    simp only [List.map_cons, List.flatten_cons, List.mem_append]
    rintro (h | h)
    · unfold drawCharacter at h
      split at h <;> simp_all
    · exact ih h

/-- The draw list of `App::render` once the last layer is identified. -/
theorem renderOps_eq_some (p : Player) (chs : List Character) (layers : List Layer)
    (vx vy ww wh : Int) (lastL : Layer) (hlast : layers.getLast? = some lastL) :
    renderOps p chs layers vx vy ww wh =
      some (renderLoop p vx vy (ww.tdiv 16 + vx.tdiv 16) (wh.tdiv 16 + vy.tdiv 16)
              layers.length 0 layers ++
            ((chs.map drawCharacter).flatten ++
             drawLayer lastL none vx vy (ww.tdiv 16 + vx.tdiv 16) (wh.tdiv 16 + vy.tdiv 16))) := by
  simp only [renderOps, hlast, List.append_assoc]

/-- Claim C10 (confirmed).  The player block is emitted only by the
depth-interleave trigger inside the layer at index 1: whenever the
trigger never fires along that layer's tile sequence (no tile at row
`player.y + 1` with column `≥ player.x` whose predecessor sat strictly
left of `player.x` — in particular when the layer has no tile in that
row, or its first tile already has column `≥ player.x`), the whole
frame's draw list contains no player draw at all. -/
theorem claim_C10_no_trigger_no_player (p : Player) (chs : List Character)
    (layers : List Layer) (vx vy ww wh : Int) (ops : List DrawOp)
    (htrig : ∀ l1, layers.get? 1 = some l1 → hasTrigger p l1.tiles none = false)
    (hops : renderOps p chs layers vx vy ww wh = some ops) :
    DrawOp.player ∉ ops := by
  cases hlast : layers.getLast? with
  | none =>
    rw [renderOps, hlast] at hops
    cases hops
  | some lastL =>
    rw [renderOps_eq_some p chs layers vx vy ww wh lastL hlast] at hops
    obtain rfl := Option.some.inj hops.symm
    simp only [List.mem_append]
    rintro (hm | hm | hm)
    · exact player_not_mem_renderLoop_zero p vx vy _ _ layers.length layers htrig hm
    · exact player_not_mem_charOps chs hm
    · exact player_not_mem_drawLayer_none lastL vx vy _ _ hm

/-- Witness for C10: a 3-layer frame whose middle layer holds one tile
far from the player's row; the emitted draw list is exactly that tile. -/
theorem claim_C10_witness :
    DrawOp.player ∉ [DrawOp.tile 5 5] :=
  claim_C10_no_trigger_no_player (Player.mk 0 0 0 0 none PlayerDir.Down) []
    [Layer.mk "A" true (50, 50) [], Layer.mk "B" true (50, 50) [MapTile.mk 5 5],
     Layer.mk "C" true (50, 50) []] 0 0 800 600 [DrawOp.tile 5 5]
    (by
      intro l1 h1
      have hb : l1 = Layer.mk "B" true (50, 50) [MapTile.mk 5 5] :=
        (Option.some.inj h1).symm
      rw [hb]
      decide)
    (by decide)
